import Mathlib

/-!
# Verification of the Zdankevich store bot

Shallow embedding of the two bot variants found in the repository:

* variant A (`bot.py`): a long-polling coin/game/subscription bot with a
  per-chat conversation state table and a coin-rate table persisted to a
  JSON file;
* variant B (`bot/main.py`, `bot/storage.py`, `bot/utils.py`,
  `bot/keyboards.py`): an aiogram catalog/cart bot with per-user carts,
  an order store and a settings store.

Python floats are modelled as rationals (`ℚ`); Python dicts as
association lists preserving insertion order; side effects (outbound
sends, callback acknowledgements) as explicit effect lists.
-/

namespace StoreBot

/-! ## Numeric parsing

`bot.py` parses user numbers with `float(text.replace(",", "."))` and
variant B parses with `float(...)` after a regex gate.  `commaToDot`
mirrors `text.replace(",", ".")` (a single-character pattern, hence a
character-wise map); `parsePyFloat` models Python's `float()` on plain
signed decimal literals (the only inputs the bot's flows produce;
exponent forms, `inf`/`nan` and surrounding whitespace are outside the
modelled grammar). -/

def commaToDot (s : String) : String :=
  ⟨s.toList.map (fun c => if c = ',' then '.' else c)⟩

def natOfDigits (l : List Char) : ℕ :=
  l.foldl (fun a c => 10 * a + (c.toNat - 48)) 0

def parsePyFloat (s : String) : Option ℚ :=
  let l := s.toList
  let signAndRest : ℚ × List Char :=
    match l with
    | '-' :: t => (-1, t)
    | '+' :: t => (1, t)
    | t => (1, t)
  let sign := signAndRest.1
  let body := signAndRest.2
  let intPart := body.takeWhile Char.isDigit
  let rest := body.dropWhile Char.isDigit
  match rest with
  | [] => if intPart.isEmpty then none else some (sign * natOfDigits intPart)
  | '.' :: frac =>
      if frac.all Char.isDigit && !(intPart.isEmpty && frac.isEmpty) then
        some (sign * ((natOfDigits intPart : ℚ) +
          (natOfDigits frac : ℚ) / (10 : ℚ) ^ frac.length))
      else none
  | _ => none

/-- Python `int()` on plain signed integer literals, used by variant B's
`add:` callback (`int(qty)`). -/
def parsePyInt (s : String) : Option ℤ :=
  let l := s.toList
  let signAndRest : ℤ × List Char :=
    match l with
    | '-' :: t => (-1, t)
    | '+' :: t => (1, t)
    | t => (1, t)
  if signAndRest.2.isEmpty || !signAndRest.2.all Char.isDigit then none
  else some (signAndRest.1 * natOfDigits signAndRest.2)

/-! ## Rounding

Python's `round(x, 2)` rounds to the nearest multiple of 1/100, ties to
even (banker's rounding).  `rhe` is round-half-to-even on `ℚ` valued in
`ℤ`; `roundQ2 x = rhe (100 * x) / 100`. -/

def rhe (x : ℚ) : ℤ :=
  if x - ⌊x⌋ < 1/2 then ⌊x⌋
  else if 1/2 < x - ⌊x⌋ then ⌊x⌋ + 1
  else if Even ⌊x⌋ then ⌊x⌋ else ⌊x⌋ + 1

def roundQ2 (x : ℚ) : ℚ := (rhe (100 * x) : ℚ) / 100

/-- Coin cost as computed at `bot.py` lines 257–259:
`total = (qty / 1_000_000) * rate` followed by `round(total, 2)`. -/
def coinTotal (qty rate : ℚ) : ℚ := roundQ2 (qty / 1000000 * rate)

lemma rhe_le (x : ℚ) : (rhe x : ℚ) ≤ x + 1/2 := by
  unfold rhe
  have hfl : (⌊x⌋ : ℚ) ≤ x := Int.floor_le x
  have hfl2 : x < (⌊x⌋ : ℚ) + 1 := Int.lt_floor_add_one x
  split_ifs with h1 h2 h3 <;> push_cast <;> linarith

lemma le_rhe (x : ℚ) : x - 1/2 ≤ (rhe x : ℚ) := by
  unfold rhe
  have hfl : (⌊x⌋ : ℚ) ≤ x := Int.floor_le x
  have hfl2 : x < (⌊x⌋ : ℚ) + 1 := Int.lt_floor_add_one x
  split_ifs with h1 h2 h3 <;> push_cast <;> linarith

lemma rhe_mono {x y : ℚ} (h : x ≤ y) : rhe x ≤ rhe y := by
  by_contra hc
  push_neg at hc
  have h1 : rhe y + 1 ≤ rhe x := by omega
  have h1q : (rhe y : ℚ) + 1 ≤ (rhe x : ℚ) := by exact_mod_cast h1
  have h2 := rhe_le x
  have h3 := le_rhe y
  have hxy : y ≤ x := by linarith
  have hxx : x = y := le_antisymm h hxy
  subst hxx
  omega

lemma rhe_zero : rhe 0 = 0 := by norm_num [rhe]

lemma roundQ2_mono {x y : ℚ} (h : x ≤ y) : roundQ2 x ≤ roundQ2 y := by
  unfold roundQ2
  have := rhe_mono (show 100 * x ≤ 100 * y by linarith)
  have hq : (rhe (100 * x) : ℚ) ≤ (rhe (100 * y) : ℚ) := by exact_mod_cast this
  linarith

lemma roundQ2_zero : roundQ2 0 = 0 := by
  unfold roundQ2
  rw [show (100 : ℚ) * 0 = 0 by ring, rhe_zero]
  norm_num

lemma coinTotal_zero (r : ℚ) : coinTotal 0 r = 0 := by
  unfold coinTotal
  rw [show (0 : ℚ) / 1000000 * r = 0 by ring, roundQ2_zero]

lemma coinTotal_mono_qty {q1 q2 r : ℚ} (hq : q1 ≤ q2) (hr : 0 ≤ r) :
    coinTotal q1 r ≤ coinTotal q2 r := by
  unfold coinTotal
  apply roundQ2_mono
  have : q1 / 1000000 ≤ q2 / 1000000 := by linarith
  exact mul_le_mul_of_nonneg_right this hr

lemma coinTotal_mono_rate {q r1 r2 : ℚ} (hq : 0 ≤ q) (hr : r1 ≤ r2) :
    coinTotal q r1 ≤ coinTotal q r2 := by
  unfold coinTotal
  apply roundQ2_mono
  have hq6 : 0 ≤ q / 1000000 := by positivity
  exact mul_le_mul_of_nonneg_left hr hq6

/-! ## Variant A (`bot.py`): data model

The conversation state table is `Dict[int, Dict[str, Any]]`; each
per-chat dict holds a `"state"` tag plus optional `"platform"`,
`"qty"`, `"total"` fields, so a session is a record of those four.
The persistent data is `{"coin_rates": {platform: rate}}`; Python
dicts become association lists with insertion-order update (replace in
place if the key exists, else append). -/

structure SessionA where
  state : String
  platform : Option String
  qty : Option ℚ
  total : Option ℚ
  deriving Repr, DecidableEq

def idleSession : SessionA := ⟨"idle", none, none, none⟩

/-- Python `dict.get` on a `str`-keyed dict (association list). -/
def dGet {α : Type} (l : List (String × α)) (k : String) : Option α :=
  (l.find? (fun p => p.1 = k)).map (·.2)

/-- Python `d[k] = v` on a `str`-keyed dict: replace in place, else append. -/
def dPut {α : Type} : List (String × α) → String → α → List (String × α)
  | [], k, v => [(k, v)]
  | (k0, v0) :: t, k, v =>
      if k0 = k then (k, v) :: t else (k0, v0) :: dPut t k v

/-- The `int`-keyed state table (`Dict[int, Dict[str, Any]]`). -/
def sGet (tbl : List (Int × SessionA)) (c : Int) : Option SessionA :=
  (tbl.find? (fun p => p.1 = c)).map (·.2)

def sPut : List (Int × SessionA) → Int → SessionA → List (Int × SessionA)
  | [], c, s => [(c, s)]
  | (c0, s0) :: t, c, s =>
      if c0 = c then (c, s) :: t else (c0, s0) :: sPut t c s

/-- Persistent data (`data.json`), `{"coin_rates": {...}}`. -/
structure DataA where
  coin_rates : List (String × ℚ)
  deriving Repr, DecidableEq

/-- Default rates written by `load_data` when `data.json` is absent or
corrupt (`bot.py` lines 104–116). -/
def defaultDataA : DataA :=
  ⟨[("Xbox", 10000), ("PlayStation", 10000), ("PC", 10000)]⟩

/-- The on-disk `data.json`: absent, syntactically corrupt, or a valid
JSON document holding a data dict. -/
inductive FileA where
  | absent
  | corrupt
  | valid (d : DataA)
  deriving Repr, DecidableEq

/-- `load_data` (`bot.py` lines 98–116): absent or corrupt file is
reinitialised with defaults via `save_data`; otherwise the parsed
content is returned unchanged.  Returns the loaded data and the file
after the call. -/
def load_data : FileA → DataA × FileA
  | .absent => (defaultDataA, .valid defaultDataA)
  | .corrupt => (defaultDataA, .valid defaultDataA)
  | .valid d => (d, .valid d)

/-- One send or one callback acknowledgement issued by variant A.
`MsgA` tags each distinct message template of `bot.py` (text payloads
abstract the f-string formatting, keeping the interpolated values). -/
inductive MsgA where
  | welcome
  | platforms
  | adminMenu
  | badQty
  | unknownPlatform
  | confirmPrompt (total qty : ℚ)
  | promptQty (platform : String)
  | gameOrderAdmin (userId : Int) (username : Option String)
  | gameOrderUser
  | subOrderAdmin (userId : Int) (username : Option String)
  | subOrderUser
  | orderAccepted (qty total : ℚ)
  | orderNotify (platform : String) (qty total : ℚ) (userId : Int)
      (username : Option String)
  | orderError
  | ratesList (rates : List (String × ℚ))
  | promptRate (platform : String)
  | badRate
  | rateUpdated (platform : String) (rate : ℚ)
  | useMenu
  deriving Repr, DecidableEq

inductive EffA where
  | send (chat : Int) (msg : MsgA)
  | ack (callbackId : String)
  deriving Repr, DecidableEq

/-- An update from `getUpdates`: a text message or a callback query. -/
inductive UpdateA where
  | message (chat user : Int) (text : String)
  | callback (callbackId : String) (chat user : Int)
      (username : Option String) (dataCb : String)
  deriving Repr, DecidableEq

structure WorldA where
  data : DataA
  tbl : List (Int × SessionA)
  file : FileA
  deriving Repr, DecidableEq

def startsWithStr (s pre : String) : Bool :=
  pre.toList.isPrefixOf s.toList

/-- `s[n:]`, as produced by `split("_", 1)[1]` once the prefix length is
known. -/
def dropStr (s : String) (n : ℕ) : String := ⟨s.toList.drop n⟩

/-- `handle_update` (`bot.py` lines 210–378), translated branch by
branch.  Returns the outbound effects in issue order and the world
after the call (state table, in-memory data, `data.json` content). -/
def handleA (adminId : Int) (u : UpdateA) (w : WorldA) : List EffA × WorldA :=
  match u with
  | .message chat user text =>
      let tbl0 := if (sGet w.tbl chat).isSome then w.tbl
                  else sPut w.tbl chat idleSession
      if text = "/start" then
        ([.send chat .welcome], { w with tbl := sPut tbl0 chat idleSession })
      else if text = "/admin" ∧ user = adminId then
        ([.send chat .adminMenu],
         { w with tbl := sPut tbl0 chat (⟨"admin_menu", none, none, none⟩) })
      else
        let sess := (sGet tbl0 chat).getD idleSession
        if sess.state = "awaiting_coin_quantity" then
          match parsePyFloat (commaToDot text) with
          | none => ([.send chat .badQty], { w with tbl := tbl0 })
          | some qty =>
              match (match sess.platform with
                     | none => none
                     | some p => dGet w.data.coin_rates p) with
              | none =>
                  ([.send chat .unknownPlatform],
                   { w with tbl := sPut tbl0 chat idleSession })
              | some rate =>
                  let totalDisplay := coinTotal qty rate
                  let sess1 := { sess with qty := some qty,
                                           total := some totalDisplay,
                                           state := "awaiting_order_confirm" }
                  ([.send chat (.confirmPrompt totalDisplay qty)],
                   { w with tbl := sPut tbl0 chat sess1 })
        else if sess.state = "admin_update_rate" then
          match parsePyFloat (commaToDot text) with
          | none => ([.send chat .badRate], { w with tbl := tbl0 })
          | some newRate =>
              let key := sess.platform.getD "None"
              let data1 : DataA := ⟨dPut w.data.coin_rates key newRate⟩
              ([.send chat (.rateUpdated key newRate)],
               { data := data1, tbl := sPut tbl0 chat idleSession,
                 file := .valid data1 })
        else
          ([.send chat .useMenu], { w with tbl := tbl0 })
  | .callback cb chat user username dataCb =>
      let tbl0 := if (sGet w.tbl chat).isSome then w.tbl
                  else sPut w.tbl chat idleSession
      if dataCb = "buy_coins" then
        ([.send chat .platforms, .ack cb],
         { w with tbl := sPut tbl0 chat (⟨"select_platform", none, none, none⟩) })
      else if dataCb = "buy_games" then
        ([.send adminId (.gameOrderAdmin user username),
          .send chat .gameOrderUser, .ack cb],
         { w with tbl := sPut tbl0 chat idleSession })
      else if dataCb = "buy_subscriptions" then
        ([.send adminId (.subOrderAdmin user username),
          .send chat .subOrderUser, .ack cb],
         { w with tbl := sPut tbl0 chat idleSession })
      else if startsWithStr dataCb "platform_" then
        let platform := dropStr dataCb 9
        ([.send chat (.promptQty platform), .ack cb],
         { w with tbl := sPut tbl0 chat (⟨"awaiting_coin_quantity", some platform, none, none⟩) })
      else if dataCb = "confirm_order" then
        let sess := (sGet tbl0 chat).getD idleSession
        match sess.qty, sess.platform, sess.total with
        | some qty, some platform, some total =>
            ([.send chat (.orderAccepted qty total),
              .send adminId (.orderNotify platform qty total user username),
              .ack cb],
             { w with tbl := sPut tbl0 chat idleSession })
        | _, _, _ =>
            ([.send chat .orderError, .ack cb],
             { w with tbl := sPut tbl0 chat idleSession })
      else if dataCb = "admin_show_rates" then
        ([.send chat (.ratesList w.data.coin_rates), .ack cb],
         { w with tbl := tbl0 })
      else if dataCb = "admin_set_Xbox" then
        ([.send chat (.promptRate "Xbox"), .ack cb],
         { w with tbl := sPut tbl0 chat (⟨"admin_update_rate", some "Xbox", none, none⟩) })
      else if dataCb = "admin_set_PlayStation" then
        ([.send chat (.promptRate "PlayStation"), .ack cb],
         { w with tbl := sPut tbl0 chat (⟨"admin_update_rate", some "PlayStation", none, none⟩) })
      else if dataCb = "admin_set_PC" then
        ([.send chat (.promptRate "PC"), .ack cb],
         { w with tbl := sPut tbl0 chat (⟨"admin_update_rate", some "PC", none, none⟩) })
      else if dataCb = "admin_back" then
        ([.send chat .welcome, .ack cb],
         { w with tbl := sPut tbl0 chat idleSession })
      else
        ([.ack cb], { w with tbl := tbl0 })

/-- Number of `answerCallbackQuery` invocations among the effects. -/
def ackCountA (effs : List EffA) : ℕ :=
  (effs.filter (fun e => match e with | .ack _ => true | _ => false)).length

/-- The world produced by `poll_loop` start-up: `load_data()` plus an
empty state table. -/
def bootWorldA (f : FileA) : WorldA :=
  let df := load_data f
  ⟨df.1, [], df.2⟩

/-- Worlds the process can actually be in: first boot on a missing
`data.json`, any handled update, and any restart on whatever file the
previous run left behind. -/
inductive ReachableA (adminId : Int) : WorldA → Prop where
  | boot : ReachableA adminId (bootWorldA .absent)
  | step {w : WorldA} (u : UpdateA) (h : ReachableA adminId w) :
      ReachableA adminId (handleA adminId u w).2
  | restart {w : WorldA} (h : ReachableA adminId w) :
      ReachableA adminId (bootWorldA w.file)

/-- The three fixed platforms all have an entry in the rate table. -/
def hasAllPlatforms (d : DataA) : Prop :=
  (dGet d.coin_rates "Xbox").isSome ∧
    (dGet d.coin_rates "PlayStation").isSome ∧
    (dGet d.coin_rates "PC").isSome

def fileInvA : FileA → Prop
  | .valid d => hasAllPlatforms d
  | _ => True

/-! ## Variant B: `bot/utils.py` -/

/-- `CartItem` dataclass (`bot/utils.py` lines 5–10). -/
structure CartItem where
  product_id : String
  title : String
  qty : ℤ
  price_rub : ℚ
  deriving Repr, DecidableEq

/-- `calc_total` (`bot/utils.py` lines 12–13):
`sum(i.qty * i.price_rub for i in items)`. -/
def calc_total (items : List CartItem) : ℚ :=
  (items.map (fun i => (i.qty : ℚ) * i.price_rub)).sum

/-! ## Variant B: `bot/storage.py`

The `orders` table is append-only with `AUTOINCREMENT` ids, so it is a
list in insertion order whose ids are assigned as `length + 1`;
`lastrowid` is the id just inserted.  `settings` is a key→value table
with upsert.  `created_at` is the caller-supplied timestamp string
(`datetime.utcnow().isoformat()` at call time). -/

structure OrderB where
  id : ℕ
  user_id : Int
  username : String
  items : List CartItem
  total_rub : ℚ
  rate : ℚ
  comment : String
  status : String
  created_at : String
  deriving Repr, DecidableEq

/-- `get_setting` (`bot/storage.py` lines 32–37): the stored value if
the key exists, else the supplied default. -/
def get_setting (settings : List (String × String)) (key : String)
    (default : Option String) : Option String :=
  match settings.find? (fun p => p.1 = key) with
  | some p => some p.2
  | none => default

/-- `set_setting` (`bot/storage.py` lines 39–44): upsert. -/
def set_setting (settings : List (String × String)) (key value : String) :
    List (String × String) :=
  dPut settings key value

/-- `save_order` (`bot/storage.py` lines 46–55): insert one row with
`status="new"` by default and return `lastrowid`. -/
def save_order (orders : List OrderB) (user_id : Int) (username : String)
    (items : List CartItem) (total_rub rate : ℚ) (comment : String)
    (now : String) : ℕ × List OrderB :=
  let newId := orders.length + 1
  (newId, orders ++ [⟨newId, user_id, username, items, total_rub, rate,
    comment, "new", now⟩])

/-- `list_orders` (`bot/storage.py` lines 57–62):
`SELECT * FROM orders ORDER BY id DESC LIMIT ?` — rows are stored in
insertion order with ascending ids, so descending order is the reversed
list. -/
def list_orders (orders : List OrderB) (limit : ℕ) : List OrderB :=
  orders.reverse.take limit

/-- One CSV cell; `items` stands for the `json.dumps` serialization of
the order's item list. -/
inductive CsvCell where
  | nat (n : ℕ)
  | int (i : Int)
  | str (s : String)
  | rat (q : ℚ)
  | items (l : List CartItem)
  deriving Repr, DecidableEq

def csvHeader : List CsvCell :=
  [.str "id", .str "user_id", .str "username", .str "items",
   .str "total_rub", .str "rate", .str "comment", .str "status",
   .str "created_at"]

def csvRowOf (r : OrderB) : List CsvCell :=
  [.nat r.id, .int r.user_id, .str r.username, .items r.items,
   .rat r.total_rub, .rat r.rate, .str r.comment, .str r.status,
   .str r.created_at]

/-- `export_orders_csv` (`bot/storage.py` lines 64–75): take up to
10000 rows; if there are none, return 0 without creating a file;
otherwise write header plus one line per row and return the row
count. -/
def export_orders_csv (orders : List OrderB) :
    ℕ × Option (List (List CsvCell)) :=
  let rows := list_orders orders 10000
  if rows.isEmpty then (0, none)
  else (rows.length, some (csvHeader :: rows.map csvRowOf))

/-! ## Variant B: `bot/main.py`

Per-user carts (`CARTS`), the aiogram FSM state, and the handler
functions.  Effects: `ack` is `c.answer(...)` (the
`answerCallbackQuery` transport acknowledgement, optionally carrying a
toast), `editMsg` is `c.message.edit_text`, `sendMsg` is
`.answer`, `reply` is `.reply`, and `crash` marks an uncaught
exception escaping the handler (e.g. `float()`/`int()` raising). -/

/-- A catalog product (`products.json` entry). -/
structure ProdB where
  id : String
  title : String
  price_rub : ℚ
  category : String
  active : Bool
  deriving Repr, DecidableEq

def iGet {α : Type} (l : List (Int × α)) (k : Int) : Option α :=
  (l.find? (fun p => p.1 = k)).map (·.2)

def iPut {α : Type} : List (Int × α) → Int → α → List (Int × α)
  | [], k, v => [(k, v)]
  | (k0, v0) :: t, k, v =>
      if k0 = k then (k, v) :: t else (k0, v0) :: iPut t k v

inductive MsgB where
  | startMenu
  | mainMenu
  | categoriesView
  | productsView (catId : String)
  | productDetail (prodId : String)
  | noSuchProduct
  | addedToCart
  | cartEmptyView
  | cartView (items : List CartItem) (total rate : ℚ)
  | cartCleared
  | cartEmptyToast
  | orderCreated (id : ℕ) (total : ℚ)
  | accessDenied
  | noAccess
  | adminPanel
  | curRatePrompt (cur : String)
  | promptJson
  | noOrders
  | ordersList (os : List OrderB)
  | exportDone (count : ℕ)
  | rateUpdated (text : String)
  | catalogUpdated
  | jsonError (e : String)
  deriving Repr, DecidableEq

inductive EffB where
  | ack (toast : Option MsgB)
  | editMsg (m : MsgB)
  | sendMsg (m : MsgB)
  | reply (m : MsgB)
  | crash
  deriving Repr, DecidableEq

/-- Number of `answerCallbackQuery` invocations among the effects. -/
def ackCountB (effs : List EffB) : ℕ :=
  (effs.filter (fun e => match e with | .ack _ => true | _ => false)).length

structure WorldB where
  carts : List (Int × List CartItem)
  orders : List OrderB
  settings : List (String × String)
  fsm : List (Int × Option String)
  catalogFile : String
  deriving Repr, DecidableEq

def fsmGet (w : WorldB) (uid : Int) : Option String :=
  match iGet w.fsm uid with
  | some s => s
  | none => none

/-- `^\d+(?:\.\d+)?$` — the full-match gate on `set_rate`
(`bot/main.py` line 145). -/
def matchesRateRegex (s : String) : Bool :=
  let l := s.toList
  let d1 := l.takeWhile Char.isDigit
  let rest := l.dropWhile Char.isDigit
  !d1.isEmpty &&
    (rest.isEmpty ||
      match rest with
      | '.' :: f => !f.isEmpty && f.all Char.isDigit
      | _ => false)

/-- `str.split(":")`. -/
def splitCh (c : Char) : List Char → List (List Char)
  | [] => [[]]
  | x :: xs =>
      match splitCh c xs with
      | [] => [[]]
      | h :: t => if x = c then [] :: h :: t else (x :: h) :: t

def splitColon (s : String) : List String :=
  (splitCh ':' s.toList).map (fun l => ⟨l⟩)

/-- `show_cart` (`bot/main.py` lines 83–92), effect part: the cart
redisplay does not change state.  The exchange rate is
`float(get_setting("exchange_rate", str(DEFAULT_RATE)))`; an
unparseable stored value would raise out of the handler. -/
def showCartEffs (dfltRate : String) (w : WorldB) (uid : Int) : List EffB :=
  let items := (iGet w.carts uid).getD []
  if items.isEmpty then [.editMsg .cartEmptyView]
  else
    match parsePyFloat ((get_setting w.settings "exchange_rate"
        (some dfltRate)).getD dfltRate) with
    | some rate => [.editMsg (.cartView items (calc_total items) rate)]
    | none => [.crash]

/-- `add_to_cart` (`bot/main.py` lines 70–81), after the `add:` token
has been split and the quantity parsed: look the product up, append a
snapshot `CartItem` to the user's cart (`CARTS.setdefault` + `append`),
toast, and redisplay the cart. -/
def add_to_cart (dfltRate : String) (catalog : List ProdB) (uid : Int)
    (prodId : String) (qty : ℤ) (w : WorldB) : List EffB × WorldB :=
  match catalog.find? (fun p => p.id = prodId) with
  | none => ([.ack (some .noSuchProduct)], w)
  | some p =>
      let items := (iGet w.carts uid).getD []
      let item : CartItem := ⟨prodId, p.title, qty, p.price_rub⟩
      let w' := { w with carts := iPut w.carts uid (items ++ [item]) }
      (.ack (some .addedToCart) :: showCartEffs dfltRate w' uid, w')

/-- `checkout` (`bot/main.py` lines 100–114): reject an empty cart with
a toast; otherwise compute the cart total, read the exchange rate,
persist the order via `save_order`, reply with the new id and total,
and empty the cart. -/
def checkout (dfltRate : String) (uid : Int) (uname : Option String)
    (now : String) (w : WorldB) : List EffB × WorldB :=
  let items := (iGet w.carts uid).getD []
  if items.isEmpty then ([.ack (some .cartEmptyToast)], w)
  else
    let total := calc_total items
    match parsePyFloat ((get_setting w.settings "exchange_rate"
        (some dfltRate)).getD dfltRate) with
    | none => ([.crash], w)
    | some rate =>
        let res := save_order w.orders uid (uname.getD "") items total rate
          ("Order by @" ++ (match uname with | some u => u | none => "None"))
          now
        ([.sendMsg (.orderCreated res.1 total)],
         { w with orders := res.2, carts := iPut w.carts uid [] })

/-- `admin_menu` (`bot/main.py` lines 116–120): the `/admin` command. -/
def admin_menu (adminIds : List Int) (uid : Int) (w : WorldB) :
    List EffB × WorldB :=
  if uid ∈ adminIds then ([.sendMsg .adminPanel], w)
  else ([.reply .accessDenied], w)

/-- `admin_actions` (`bot/main.py` lines 122–143): the `admin:*`
callbacks, gated on `is_admin`. -/
def admin_actions (adminIds : List Int) (dfltRate : String) (uid : Int)
    (dataCb : String) (w : WorldB) : List EffB × WorldB :=
  if uid ∉ adminIds then ([.ack (some .noAccess)], w)
  else
    let action := dropStr dataCb 6
    if action = "rate" then
      ([.sendMsg (.curRatePrompt ((get_setting w.settings "exchange_rate"
          (some dfltRate)).getD dfltRate))],
       { w with fsm := iPut w.fsm uid (some "await_rate") })
    else if action = "products" then
      ([.sendMsg .promptJson],
       { w with fsm := iPut w.fsm uid (some "waiting_json") })
    else if action = "orders" then
      let os := list_orders w.orders 20
      if os.isEmpty then ([.sendMsg .noOrders], w)
      else ([.sendMsg (.ordersList os)], w)
    else if action = "export" then
      ([.sendMsg (.exportDone (export_orders_csv w.orders).1)], w)
    else ([], w)

/-- Callback dispatch: aiogram tries the `@dp.callback_query` handlers
in registration order (`bot/main.py`: `back_to_menu`, `catalog`,
`cat:`, `prod:`, `add:`, `cart`, `cart_clear`, `checkout`, `admin:`);
an unmatched token reaches no handler at all. -/
def dispatchCallbackB (adminIds : List Int) (dfltRate : String)
    (catalog : List ProdB) (uid : Int) (uname : Option String)
    (now : String) (dataCb : String) (w : WorldB) : List EffB × WorldB :=
  if dataCb = "back_to_menu" then ([.editMsg .mainMenu], w)
  else if dataCb = "catalog" then ([.editMsg .categoriesView], w)
  else if startsWithStr dataCb "cat:" then
    ([.editMsg (.productsView (dropStr dataCb 4))], w)
  else if startsWithStr dataCb "prod:" then
    let prodId := dropStr dataCb 5
    match catalog.find? (fun p => p.id = prodId) with
    | none => ([.ack (some .noSuchProduct)], w)
    | some _ => ([.editMsg (.productDetail prodId)], w)
  else if startsWithStr dataCb "add:" then
    match splitColon dataCb with
    | [_, prodId, qtyStr] =>
        match parsePyInt qtyStr with
        | none => ([.crash], w)
        | some qty => add_to_cart dfltRate catalog uid prodId qty w
    | _ => ([.crash], w)
  else if dataCb = "cart" then (showCartEffs dfltRate w uid, w)
  else if dataCb = "cart_clear" then
    let w' := { w with carts := iPut w.carts uid [] }
    (.ack (some .cartCleared) :: showCartEffs dfltRate w' uid, w')
  else if dataCb = "checkout" then checkout dfltRate uid uname now w
  else if startsWithStr dataCb "admin:" then
    admin_actions adminIds dfltRate uid dataCb w
  else ([], w)

/-- `set_rate` (`bot/main.py` lines 145–151), body: only acts when the
FSM state is `await_rate`; stores the raw text. -/
def set_rate (uid : Int) (text : String) (w : WorldB) : List EffB × WorldB :=
  if fsmGet w uid = some "await_rate" then
    ([.reply (.rateUpdated text)],
     { w with settings := set_setting w.settings "exchange_rate" text,
              fsm := iPut w.fsm uid none })
  else ([], w)

/-- `set_products` (`bot/main.py` lines 153–166), body, parameterized
over the JSON parser (`json.loads`, modelled as any
`String → Except String J`) and serializer (`json.dump`): only acts
when the FSM state is `waiting_json` and the sender is an admin; on
parse success the catalog file is overwritten with the serialized
document, on failure the error is replied; the state is cleared in
`finally` either way. -/
def set_products {J : Type} (jl : String → Except String J)
    (ser : J → String) (adminIds : List Int) (uid : Int) (text : String)
    (w : WorldB) : List EffB × WorldB :=
  if fsmGet w uid = some "waiting_json" ∧ uid ∈ adminIds then
    match jl text with
    | .ok d =>
        ([.reply .catalogUpdated],
         { w with catalogFile := ser d, fsm := iPut w.fsm uid none })
    | .error e =>
        ([.reply (.jsonError e)], { w with fsm := iPut w.fsm uid none })
  else ([], w)

/-- Message dispatch in registration order (`bot/main.py`):
`Command("start")`, `Command("admin")`, then `set_rate` gated on the
full-match numeric regex, then `set_products` gated on
`~F.text.regexp(r"^/.*")`; a message matching none of these reaches no
handler. -/
def routeMessageB {J : Type} (jl : String → Except String J)
    (ser : J → String) (adminIds : List Int) (uid : Int) (text : String)
    (w : WorldB) : List EffB × WorldB :=
  if text = "/start" then ([.sendMsg .startMenu], w)
  else if text = "/admin" then admin_menu adminIds uid w
  else if matchesRateRegex text then set_rate uid text w
  else if !startsWithStr text "/" then set_products jl ser adminIds uid text w
  else ([], w)

/-- Concrete JSON parser instance used for witnesses: accepts exactly
the string `"{}"`. -/
def demoParse : String → Except String Unit :=
  fun s => if s = "\x7b\x7d" then .ok () else .error "Expecting value"

def demoSer : Unit → String := fun _ => "\x7b\x7d"

/-! ## Association-list lemmas -/

lemma iGet_iPut_self {α : Type} (l : List (Int × α)) (k : Int) (v : α) :
    iGet (iPut l k v) k = some v := by
  induction l with
  | nil => simp [iGet, iPut]
  | cons h t ih =>
      obtain ⟨k0, v0⟩ := h
      by_cases hk : k0 = k
      · simp [iPut, hk, iGet]
      · simp only [iPut, if_neg hk, iGet]
        rw [List.find?_cons_of_neg _ (by simpa using hk)]
        exact ih

lemma iGet_iPut_ne {α : Type} (l : List (Int × α)) (k k' : Int) (v : α)
    (h : k ≠ k') : iGet (iPut l k v) k' = iGet l k' := by
  induction l with
  | nil => simp [iGet, iPut, List.find?, h]
  | cons hd t ih =>
      obtain ⟨k0, v0⟩ := hd
      by_cases hk : k0 = k
      · subst hk
        simp only [iPut, if_pos rfl, iGet, List.find?]
        simp [h]
      · simp only [iPut, if_neg hk, iGet, List.find?]
        cases hd2 : decide (k0 = k') with
        | true => simp
        | false => simpa [iGet] using ih

lemma sGet_sPut_self (l : List (Int × SessionA)) (k : Int) (v : SessionA) :
    sGet (sPut l k v) k = some v := by
  induction l with
  | nil => simp [sGet, sPut]
  | cons h t ih =>
      obtain ⟨k0, v0⟩ := h
      by_cases hk : k0 = k
      · simp [sPut, hk, sGet]
      · simp only [sPut, if_neg hk, sGet]
        rw [List.find?_cons_of_neg _ (by simpa using hk)]
        exact ih

lemma sGet_sPut_ne (l : List (Int × SessionA)) (k k' : Int) (v : SessionA)
    (h : k ≠ k') : sGet (sPut l k v) k' = sGet l k' := by
  induction l with
  | nil => simp [sGet, sPut, List.find?, h]
  | cons hd t ih =>
      obtain ⟨k0, v0⟩ := hd
      by_cases hk : k0 = k
      · subst hk
        simp only [sPut, if_pos rfl, sGet, List.find?]
        simp [h]
      · simp only [sPut, if_neg hk, sGet, List.find?]
        cases hd2 : decide (k0 = k') with
        | true => simp
        | false => simpa [sGet] using ih

lemma dGet_dPut_self {α : Type} (l : List (String × α)) (k : String) (v : α) :
    dGet (dPut l k v) k = some v := by
  induction l with
  | nil => simp [dGet, dPut]
  | cons h t ih =>
      obtain ⟨k0, v0⟩ := h
      by_cases hk : k0 = k
      · simp [dPut, hk, dGet]
      · simp only [dPut, if_neg hk, dGet]
        rw [List.find?_cons_of_neg _ (by simpa using hk)]
        exact ih

lemma dGet_dPut_ne {α : Type} (l : List (String × α)) (k k' : String) (v : α)
    (h : k ≠ k') : dGet (dPut l k v) k' = dGet l k' := by
  induction l with
  | nil => simp [dGet, dPut, List.find?, h]
  | cons hd t ih =>
      obtain ⟨k0, v0⟩ := hd
      by_cases hk : k0 = k
      · subst hk
        simp only [dPut, if_pos rfl, dGet, List.find?]
        simp [h]
      · simp only [dPut, if_neg hk, dGet, List.find?]
        cases hd2 : decide (k0 = k') with
        | true => simp
        | false => simpa [dGet] using ih

/-- `dPut` never deletes a key: presence of any key is preserved. -/
lemma dGet_dPut_isSome {α : Type} (l : List (String × α)) (k k' : String)
    (v : α) (h : (dGet l k').isSome) : (dGet (dPut l k v) k').isSome := by
  by_cases hk : k = k'
  · subst hk; rw [dGet_dPut_self]; rfl
  · rwa [dGet_dPut_ne _ _ _ _ hk]

lemma calc_total_append (l1 l2 : List CartItem) :
    calc_total (l1 ++ l2) = calc_total l1 + calc_total l2 := by
  simp [calc_total]


/-- Claim C5: for every non-empty cart, `checkout` creates exactly one
order. -/
theorem C5_checkout_creates_order (dfltRate : String) (uid : Int)
    (uname : Option String) (now : String) (w : WorldB) (rate : ℚ)
    (hne : (iGet w.carts uid).getD [] ≠ [])
    (hrate : parsePyFloat ((get_setting w.settings "exchange_rate"
      (some dfltRate)).getD dfltRate) = some rate) :
    checkout dfltRate uid uname now w =
      ([.sendMsg (.orderCreated (w.orders.length + 1)
          (calc_total ((iGet w.carts uid).getD [])))],
       { w with
          orders := w.orders ++ [⟨w.orders.length + 1, uid, uname.getD "",
            (iGet w.carts uid).getD [],
            calc_total ((iGet w.carts uid).getD []), rate,
            "Order by @" ++ (match uname with | some u => u | none => "None"),
            "new", now⟩],
          carts := iPut w.carts uid [] }) := by
  have hne' : ((iGet w.carts uid).getD []).isEmpty = false :=
    List.isEmpty_eq_false.2 hne
  unfold checkout
  simp only [hne', Bool.false_eq_true, if_false, hrate, save_order]

theorem C5_checkout_creates_order_witness :
    (iGet (WorldB.mk [(1, [⟨"p1", "Game", 2, 100⟩])] []
        [("exchange_rate", "3500")] [] "").carts 1).getD [] ≠ [] ∧
    parsePyFloat ((get_setting [("exchange_rate", "3500")] "exchange_rate"
        (some "3000")).getD "3000") = some 3500 ∧
    checkout "3000" 1 (some "al") "ts"
        (WorldB.mk [(1, [⟨"p1", "Game", 2, 100⟩])] []
          [("exchange_rate", "3500")] [] "") =
      ([.sendMsg (.orderCreated 1 (calc_total [⟨"p1", "Game", 2, 100⟩]))],
       WorldB.mk (iPut [(1, [⟨"p1", "Game", 2, 100⟩])] 1 [])
         [⟨1, 1, "al", [⟨"p1", "Game", 2, 100⟩],
           calc_total [⟨"p1", "Game", 2, 100⟩], 3500, "Order by @" ++ "al",
           "new", "ts"⟩]
         [("exchange_rate", "3500")] [] "") :=
  ⟨by simp [iGet], by simp [get_setting, parsePyFloat, natOfDigits],
    C5_checkout_creates_order "3000" 1 (some "al") "ts" _ 3500
      (by simp [iGet])
      (by simp [get_setting, parsePyFloat, natOfDigits])⟩

/-- Claim C6: checkout on an empty cart changes nothing. -/
theorem C6_checkout_empty_cart (dfltRate : String) (uid : Int)
    (uname : Option String) (now : String) (w : WorldB)
    (h : (iGet w.carts uid).getD [] = []) :
    checkout dfltRate uid uname now w = ([.ack (some .cartEmptyToast)], w) := by
  unfold checkout
  rw [h]
  simp

theorem C6_checkout_empty_cart_witness :
    (iGet (WorldB.mk [] [] [] [] "").carts 1).getD [] = [] ∧
      checkout "3000" 1 none "t" (WorldB.mk [] [] [] [] "") =
        ([.ack (some .cartEmptyToast)], WorldB.mk [] [] [] [] "") :=
  ⟨rfl, C6_checkout_empty_cart "3000" 1 none "t" _ rfl⟩

/-- Claim C7: CSV export counts. -/
theorem C7_export_counts :
    (∀ orders : List OrderB, orders = [] →
      export_orders_csv orders = (0, none)) ∧
    (∀ orders : List OrderB, orders ≠ [] → orders.length ≤ 10000 →
      export_orders_csv orders =
        (orders.length,
         some (csvHeader :: (list_orders orders 10000).map csvRowOf)) ∧
      (csvHeader :: (list_orders orders 10000).map csvRowOf).length =
        orders.length + 1) := by
  constructor
  · intro orders h
    subst h
    simp [export_orders_csv, list_orders]
  · intro orders hne hlen
    have hrows : list_orders orders 10000 = orders.reverse := by
      unfold list_orders
      exact List.take_of_length_le (by simpa using hlen)
    have hre : (list_orders orders 10000).isEmpty = false := by
      rw [hrows, List.isEmpty_eq_false]
      simpa using hne
    constructor
    · unfold export_orders_csv
      simp only [hre, Bool.false_eq_true, if_false]
      rw [hrows]
      simp
    · rw [hrows]
      simp

theorem C7_export_counts_witness :
    ([] : List OrderB) = [] ∧ export_orders_csv [] = (0, none) ∧
    ([⟨1, 1, "a", [], 0, 1, "c", "new", "t"⟩,
      ⟨2, 1, "a", [], 0, 1, "c", "new", "t"⟩,
      ⟨3, 1, "a", [], 0, 1, "c", "new", "t"⟩] : List OrderB) ≠ [] ∧
    export_orders_csv
        [⟨1, 1, "a", [], 0, 1, "c", "new", "t"⟩,
         ⟨2, 1, "a", [], 0, 1, "c", "new", "t"⟩,
         ⟨3, 1, "a", [], 0, 1, "c", "new", "t"⟩] =
      (3, some (csvHeader :: (list_orders
        [⟨1, 1, "a", [], 0, 1, "c", "new", "t"⟩,
         ⟨2, 1, "a", [], 0, 1, "c", "new", "t"⟩,
         ⟨3, 1, "a", [], 0, 1, "c", "new", "t"⟩] 10000).map csvRowOf)) ∧
    (csvHeader :: (list_orders
        [⟨1, 1, "a", [], 0, 1, "c", "new", "t"⟩,
         ⟨2, 1, "a", [], 0, 1, "c", "new", "t"⟩,
         ⟨3, 1, "a", [], 0, 1, "c", "new", "t"⟩] 10000).map csvRowOf).length
      = 4 :=
  ⟨rfl, C7_export_counts.1 [] rfl, by simp,
    (C7_export_counts.2 _ (by simp) (by simp)).1,
    (C7_export_counts.2 _ (by simp) (by simp)).2⟩

/-- Claim C10: add-to-cart appends. -/
theorem C10_add_to_cart_appends (dfltRate : String) (catalog : List ProdB)
    (uid : Int) (prodId : String) (qty : ℤ) (w : WorldB) (p : ProdB)
    (hfound : catalog.find? (fun q => q.id = prodId) = some p)
    (_hmem : ((iGet w.carts uid).getD []).any
      (fun i => i.product_id = prodId) = true) :
    (iGet (add_to_cart dfltRate catalog uid prodId qty w).2.carts uid).getD []
        = (iGet w.carts uid).getD [] ++ [⟨prodId, p.title, qty, p.price_rub⟩] ∧
    ((iGet (add_to_cart dfltRate catalog uid prodId qty w).2.carts uid).getD
        []).length = ((iGet w.carts uid).getD []).length + 1 ∧
    calc_total ((iGet (add_to_cart dfltRate catalog uid prodId qty w).2.carts
        uid).getD []) =
      calc_total ((iGet w.carts uid).getD []) + qty * p.price_rub ∧
    (add_to_cart dfltRate catalog uid prodId qty w).2.orders = w.orders := by
  have hc : (iGet (add_to_cart dfltRate catalog uid prodId qty w).2.carts
      uid).getD [] = (iGet w.carts uid).getD []
        ++ [⟨prodId, p.title, qty, p.price_rub⟩] := by
    unfold add_to_cart
    rw [hfound]
    dsimp only
    rw [iGet_iPut_self]
    rfl
  refine ⟨hc, ?_, ?_, ?_⟩
  · rw [hc]; simp
  · rw [hc, calc_total_append]; simp [calc_total]
  · unfold add_to_cart
    rw [hfound]


theorem C10_add_to_cart_appends_witness :
    ([⟨"p1", "Game", 100, "c1", true⟩] : List ProdB).find?
        (fun q => q.id = "p1") = some ⟨"p1", "Game", 100, "c1", true⟩ ∧
    ((iGet (WorldB.mk [(1, [⟨"p1", "Game", 1, 100⟩])] [] [] [] "").carts
        1).getD []).any (fun i => i.product_id = "p1") = true ∧
    (iGet (add_to_cart "3000" [⟨"p1", "Game", 100, "c1", true⟩] 1 "p1" 2
        (WorldB.mk [(1, [⟨"p1", "Game", 1, 100⟩])] [] [] [] "")).2.carts
        1).getD []
      = (iGet (WorldB.mk [(1, [⟨"p1", "Game", 1, 100⟩])] [] [] [] "").carts
          1).getD [] ++ [⟨"p1", "Game", 2, 100⟩] :=
  ⟨by simp, by simp [iGet],
    (C10_add_to_cart_appends "3000" [⟨"p1", "Game", 100, "c1", true⟩] 1 "p1"
      2 (WorldB.mk [(1, [⟨"p1", "Game", 1, 100⟩])] [] [] [] "")
      ⟨"p1", "Game", 100, "c1", true⟩ (by simp) (by simp [iGet])).1⟩


/-! ## Variant A handler branch lemmas -/

lemma handleA_qty_branch (a chat user : Int) (text : String) (w : WorldA)
    (sess : SessionA) (qty rate : ℚ)
    (hs : sGet w.tbl chat = some sess)
    (hstate : sess.state = "awaiting_coin_quantity")
    (hstart : text ≠ "/start")
    (hadmin : ¬(text = "/admin" ∧ user = a))
    (hparse : parsePyFloat (commaToDot text) = some qty)
    (hrate : (match sess.platform with
              | none => none
              | some p => dGet w.data.coin_rates p) = some rate) :
    handleA a (.message chat user text) w =
      ([.send chat (.confirmPrompt (coinTotal qty rate) qty)],
       { w with tbl := sPut w.tbl chat (SessionA.mk
           "awaiting_order_confirm" sess.platform (some qty)
           (some (coinTotal qty rate))) }) := by
  unfold handleA
  simp [hs, hstart, hadmin, hstate, hparse, hrate]

lemma handleA_qty_reject (a chat user : Int) (text : String) (w : WorldA)
    (sess : SessionA)
    (hs : sGet w.tbl chat = some sess)
    (hstate : sess.state = "awaiting_coin_quantity")
    (hstart : text ≠ "/start")
    (hadmin : ¬(text = "/admin" ∧ user = a))
    (hparse : parsePyFloat (commaToDot text) = none) :
    handleA a (.message chat user text) w = ([.send chat .badQty], w) := by
  unfold handleA
  simp [hs, hstart, hadmin, hstate, hparse]

lemma handleA_rate_reject (a chat user : Int) (text : String) (w : WorldA)
    (sess : SessionA)
    (hs : sGet w.tbl chat = some sess)
    (hstate : sess.state = "admin_update_rate")
    (hstart : text ≠ "/start")
    (hadmin : ¬(text = "/admin" ∧ user = a))
    (hparse : parsePyFloat (commaToDot text) = none) :
    handleA a (.message chat user text) w = ([.send chat .badRate], w) := by
  unfold handleA
  simp [hs, hstart, hadmin, hstate, hparse]

lemma handleA_use_menu (a chat user : Int) (text : String) (w : WorldA)
    (sess : SessionA)
    (hs : sGet w.tbl chat = some sess)
    (h1 : sess.state ≠ "awaiting_coin_quantity")
    (h2 : sess.state ≠ "admin_update_rate")
    (hstart : text ≠ "/start") (hadmin : ¬(text = "/admin" ∧ user = a)) :
    handleA a (.message chat user text) w = ([.send chat .useMenu], w) := by
  unfold handleA
  simp [hs, hstart, hadmin, h1, h2]

lemma handleA_use_menu_absent (a chat user : Int) (text : String)
    (w : WorldA)
    (hs : sGet w.tbl chat = none)
    (hstart : text ≠ "/start") (hadmin : ¬(text = "/admin" ∧ user = a)) :
    handleA a (.message chat user text) w =
      ([.send chat .useMenu],
       { w with tbl := sPut w.tbl chat idleSession }) := by
  unfold handleA
  simp [hs, hstart, hadmin, sGet_sPut_self, idleSession]

lemma sGet_init_getD (tbl : List (Int × SessionA)) (chat c : Int) :
    (sGet (if (sGet tbl chat).isSome then tbl
           else sPut tbl chat idleSession) c).getD idleSession
      = (sGet tbl c).getD idleSession := by
  cases h : sGet tbl chat with
  | some s => simp [h]
  | none =>
      simp only [h, Option.isSome_none, Bool.false_eq_true, if_false]
      by_cases hc : chat = c
      · subst hc
        rw [sGet_sPut_self, h]
        rfl
      · rw [sGet_sPut_ne _ _ _ _ hc]

/-- A non-admin sending `/admin` in variant A: the in-memory data, the
file, and every chat's session are unchanged (the handler falls through
to the generic state dispatch). -/
lemma handleA_nonadmin_admin_cmd (a chat user : Int) (w : WorldA)
    (huser : user ≠ a) :
    (handleA a (.message chat user "/admin") w).2.data = w.data ∧
    (handleA a (.message chat user "/admin") w).2.file = w.file ∧
    ∀ c, (sGet (handleA a (.message chat user "/admin") w).2.tbl c).getD
        idleSession = (sGet w.tbl c).getD idleSession := by
  have hp : parsePyFloat (commaToDot "/admin") = none := by
    simp [commaToDot, parsePyFloat, natOfDigits]
  have hstart : ("/admin" : String) ≠ "/start" := by decide
  have hadmin : ¬(("/admin" : String) = "/admin" ∧ user = a) := by
    simp [huser]
  cases hs : sGet w.tbl chat with
  | some sess =>
      by_cases h1 : sess.state = "awaiting_coin_quantity"
      · rw [handleA_qty_reject a chat user "/admin" w sess hs h1 hstart
          hadmin hp]
        simp
      · by_cases h2 : sess.state = "admin_update_rate"
        · rw [handleA_rate_reject a chat user "/admin" w sess hs h2 hstart
            hadmin hp]
          simp
        · rw [handleA_use_menu a chat user "/admin" w sess hs h1 h2 hstart
            hadmin]
          simp
  | none =>
      rw [handleA_use_menu_absent a chat user "/admin" w hs hstart hadmin]
      refine ⟨rfl, rfl, fun c => ?_⟩
      by_cases hc : chat = c
      · subst hc
        simp [sGet_sPut_self, hs, idleSession]
      · simp [sGet_sPut_ne _ _ _ _ hc]

/-- Claim C1 (amended): in variant B both the `/admin` command and the
`admin:*` callbacks are gated on the allow-list with a fixed denial and
no state change; in variant A a non-admin's `/admin` command executes
no admin action and changes no session, data or file state (though its
reply is the generic fallback, not an access-denied message). -/
theorem C1_admin_gating (adminIds : List Int) (dflt : String) (uid : Int)
    (dcb : String) (wB : WorldB) (a chat user : Int) (wA : WorldA) :
    (uid ∉ adminIds →
      admin_menu adminIds uid wB = ([.reply .accessDenied], wB)) ∧
    (uid ∉ adminIds →
      admin_actions adminIds dflt uid dcb wB =
        ([.ack (some .noAccess)], wB)) ∧
    (user ≠ a →
      (handleA a (.message chat user "/admin") wA).2.data = wA.data ∧
      (handleA a (.message chat user "/admin") wA).2.file = wA.file ∧
      ∀ c, (sGet (handleA a (.message chat user "/admin") wA).2.tbl c).getD
          idleSession = (sGet wA.tbl c).getD idleSession) :=
  ⟨fun h => by unfold admin_menu; simp [h],
   fun h => by unfold admin_actions; simp [h],
   fun h => handleA_nonadmin_admin_cmd a chat user wA h⟩

theorem C1_admin_gating_witness :
    (2 : Int) ∉ ([1] : List Int) ∧
    admin_menu [1] 2 (WorldB.mk [] [] [] [] "") =
      ([.reply .accessDenied], WorldB.mk [] [] [] [] "") ∧
    admin_actions [1] "3000" 2 "admin:rate" (WorldB.mk [] [] [] [] "") =
      ([.ack (some .noAccess)], WorldB.mk [] [] [] [] "") ∧
    (2 : Int) ≠ 1 ∧
    (handleA 1 (.message 5 2 "/admin")
      (WorldA.mk defaultDataA [] .absent)).2.data = defaultDataA :=
  ⟨by decide,
   (C1_admin_gating [1] "3000" 2 "admin:rate" (WorldB.mk [] [] [] [] "")
     1 5 2 (WorldA.mk defaultDataA [] .absent)).1 (by decide),
   (C1_admin_gating [1] "3000" 2 "admin:rate" (WorldB.mk [] [] [] [] "")
     1 5 2 (WorldA.mk defaultDataA [] .absent)).2.1 (by decide),
   by decide,
   ((C1_admin_gating [1] "3000" 2 "admin:rate" (WorldB.mk [] [] [] [] "")
     1 5 2 (WorldA.mk defaultDataA [] .absent)).2.2 (by decide)).1⟩

/-- Claim C1 counterexample: in variant A an `admin_set_Xbox` callback
from user 2, who is not the configured admin (id 1), is executed with
no access check: it is answered with the rate prompt and moves the
chat's session into the `admin_update_rate` state. -/
theorem C1_counterexample_ungated_callback :
    (2 : Int) ≠ 1 ∧
    handleA 1 (.callback "cb1" 5 2 none "admin_set_Xbox")
        (WorldA.mk defaultDataA [] (.valid defaultDataA)) =
      ([.send 5 (.promptRate "Xbox"), .ack "cb1"],
       WorldA.mk defaultDataA
         [(5, SessionA.mk "admin_update_rate" (some "Xbox") none none)]
         (.valid defaultDataA)) :=
  ⟨by decide, by rfl⟩

set_option maxHeartbeats 2000000 in
/-- Claim C2 (amended): in variant A every callback query is
acknowledged exactly once, whichever branch runs and whether or not the
token is recognized. -/
theorem C2_ack_exactly_once_variantA (a : Int) (cb : String)
    (chat user : Int) (un : Option String) (dcb : String) (w : WorldA) :
    ackCountA (handleA a (.callback cb chat user un dcb) w).1 = 1 := by
  unfold handleA
  dsimp only
  generalize (if (sGet w.tbl chat).isSome = true then w.tbl
    else sPut w.tbl chat idleSession) = t
  split_ifs <;> (try split) <;> simp [ackCountA]

/-- Claim C2 counterexample: variant B's `back_to_menu` handler edits
the message but never calls the acknowledgment primitive, so that
callback is acknowledged zero times, not exactly once. -/
theorem C2_counterexample_back_menu :
    dispatchCallbackB [7] "3000" [] 1 none "now" "back_to_menu"
        (WorldB.mk [] [] [] [] "") =
      ([.editMsg .mainMenu], WorldB.mk [] [] [] [] "") ∧
    ackCountB [.editMsg .mainMenu] = 0 :=
  ⟨by rfl, by rfl⟩


/-- Claim C4: the coin cost stored and shown by the quantity handler is
`round((quantity / 1_000_000) * rate, 2)`; it is 0 at quantity 0 and
monotonically non-decreasing in quantity and in rate. -/
theorem C4_coin_cost (a chat user : Int) (text : String) (w : WorldA)
    (sess : SessionA) (qty rate : ℚ) :
    (∀ q r : ℚ, coinTotal q r = roundQ2 (q / 1000000 * r)) ∧
    (∀ r : ℚ, 0 < r → coinTotal 0 r = 0) ∧
    (∀ q1 q2 r : ℚ, 0 ≤ q1 → q1 ≤ q2 → 0 < r →
      coinTotal q1 r ≤ coinTotal q2 r) ∧
    (∀ q r1 r2 : ℚ, 0 ≤ q → 0 < r1 → r1 ≤ r2 →
      coinTotal q r1 ≤ coinTotal q r2) ∧
    (sGet w.tbl chat = some sess →
     sess.state = "awaiting_coin_quantity" →
     text ≠ "/start" → ¬(text = "/admin" ∧ user = a) →
     parsePyFloat (commaToDot text) = some qty →
     (match sess.platform with
      | none => none
      | some p => dGet w.data.coin_rates p) = some rate →
     handleA a (.message chat user text) w =
       ([.send chat (.confirmPrompt (coinTotal qty rate) qty)],
        { w with tbl := sPut w.tbl chat (SessionA.mk
            "awaiting_order_confirm" sess.platform (some qty)
            (some (coinTotal qty rate))) })) :=
  ⟨fun _ _ => rfl,
   fun r _ => coinTotal_zero r,
   fun _ _ _ _ h2 hr => coinTotal_mono_qty h2 (le_of_lt hr),
   fun _ _ _ hq _ hr => coinTotal_mono_rate hq hr,
   fun hs hstate hstart hadmin hparse hrate =>
     handleA_qty_branch a chat user text w sess qty rate hs hstate hstart
       hadmin hparse hrate⟩

theorem C4_coin_cost_witness :
    (0 : ℚ) < 10000 ∧ coinTotal 0 10000 = 0 ∧
    coinTotal 300000 10000 ≤ coinTotal 1000000 10000 ∧
    coinTotal 300000 10000 ≤ coinTotal 300000 12500 ∧
    handleA 1 (.message 5 2 "1000000")
        (WorldA.mk defaultDataA
          [(5, SessionA.mk "awaiting_coin_quantity" (some "Xbox") none none)]
          (.valid defaultDataA)) =
      ([.send 5 (.confirmPrompt (coinTotal 1000000 10000) 1000000)],
       WorldA.mk defaultDataA
         (sPut [(5, SessionA.mk "awaiting_coin_quantity" (some "Xbox") none
             none)] 5
           (SessionA.mk "awaiting_order_confirm" (some "Xbox") (some 1000000)
             (some (coinTotal 1000000 10000))))
         (.valid defaultDataA)) :=
  ⟨by norm_num,
   (C4_coin_cost 1 5 2 "1000000" (WorldA.mk defaultDataA [] .absent)
     idleSession 0 0).2.1 10000 (by norm_num),
   (C4_coin_cost 1 5 2 "1000000" (WorldA.mk defaultDataA [] .absent)
     idleSession 0 0).2.2.1 300000 1000000 10000 (by norm_num) (by norm_num)
     (by norm_num),
   (C4_coin_cost 1 5 2 "1000000" (WorldA.mk defaultDataA [] .absent)
     idleSession 0 0).2.2.2.1 300000 10000 12500 (by norm_num) (by norm_num)
     (by norm_num),
   (C4_coin_cost 1 5 2 "1000000"
     (WorldA.mk defaultDataA
       [(5, SessionA.mk "awaiting_coin_quantity" (some "Xbox") none none)]
       (.valid defaultDataA))
     (SessionA.mk "awaiting_coin_quantity" (some "Xbox") none none)
     1000000 10000).2.2.2.2 rfl rfl (by decide) (by decide)
     (by simp [commaToDot, parsePyFloat, natOfDigits]) rfl⟩

/-- Claim C3 (amended): variant A substitutes comma for period and
parses a decimal, re-prompting with state and stores unchanged on
failure, and accepting a comma-decimal such as `"12,5"`; variant B's
rate input instead requires the dot-only pattern `^\d+(?:\.\d+)?$` and
silently ignores anything else (no re-prompt, state and stores
unchanged, no record). -/
theorem C3_numeric_input (a chat user : Int) (text : String) (wA : WorldA)
    (sess : SessionA) {J : Type} (jl : String → Except String J)
    (ser : J → String) (adminIds : List Int) (uid : Int) (textB : String)
    (wB : WorldB) :
    (sGet wA.tbl chat = some sess →
     sess.state = "awaiting_coin_quantity" →
     text ≠ "/start" → ¬(text = "/admin" ∧ user = a) →
     parsePyFloat (commaToDot text) = none →
     handleA a (.message chat user text) wA = ([.send chat .badQty], wA)) ∧
    (sGet wA.tbl chat = some sess →
     sess.state = "admin_update_rate" →
     text ≠ "/start" → ¬(text = "/admin" ∧ user = a) →
     parsePyFloat (commaToDot text) = none →
     handleA a (.message chat user text) wA = ([.send chat .badRate], wA)) ∧
    parsePyFloat (commaToDot "12,5") = some (25 / 2) ∧
    (fsmGet wB uid = some "await_rate" →
     matchesRateRegex textB = false →
     startsWithStr textB "/" = false →
     routeMessageB jl ser adminIds uid textB wB = ([], wB)) := by
  refine ⟨?_, ?_, ?_, ?_⟩
  · exact fun hs hstate hstart hadmin hp =>
      handleA_qty_reject a chat user text wA sess hs hstate hstart hadmin hp
  · exact fun hs hstate hstart hadmin hp =>
      handleA_rate_reject a chat user text wA sess hs hstate hstart hadmin hp
  · simp [commaToDot, parsePyFloat, natOfDigits]
    norm_num
  · intro hfsm hreg hsw
    have h1 : textB ≠ "/start" := by
      intro he
      rw [he] at hsw
      exact absurd hsw (by decide)
    have h2 : textB ≠ "/admin" := by
      intro he
      rw [he] at hsw
      exact absurd hsw (by decide)
    unfold routeMessageB set_products
    simp [h1, h2, hreg, hsw, hfsm]

theorem C3_numeric_input_witness :
    parsePyFloat (commaToDot "abc") = none ∧
    handleA 1 (.message 5 2 "abc")
        (WorldA.mk defaultDataA
          [(5, SessionA.mk "awaiting_coin_quantity" (some "Xbox") none none)]
          (.valid defaultDataA)) =
      ([.send 5 .badQty],
       WorldA.mk defaultDataA
         [(5, SessionA.mk "awaiting_coin_quantity" (some "Xbox") none none)]
         (.valid defaultDataA)) ∧
    handleA 1 (.message 5 2 "abc")
        (WorldA.mk defaultDataA
          [(5, SessionA.mk "admin_update_rate" (some "Xbox") none none)]
          (.valid defaultDataA)) =
      ([.send 5 .badRate],
       WorldA.mk defaultDataA
         [(5, SessionA.mk "admin_update_rate" (some "Xbox") none none)]
         (.valid defaultDataA)) ∧
    routeMessageB demoParse demoSer [7] 7 "hello"
        (WorldB.mk [] [] [] [(7, some "await_rate")] "") =
      ([], WorldB.mk [] [] [] [(7, some "await_rate")] "") :=
  ⟨by simp [commaToDot, parsePyFloat, natOfDigits],
   (C3_numeric_input 1 5 2 "abc"
     (WorldA.mk defaultDataA
       [(5, SessionA.mk "awaiting_coin_quantity" (some "Xbox") none none)]
       (.valid defaultDataA))
     (SessionA.mk "awaiting_coin_quantity" (some "Xbox") none none)
     demoParse demoSer [7] 7 "hello"
     (WorldB.mk [] [] [] [(7, some "await_rate")] "")).1 rfl rfl (by decide)
     (by decide) (by simp [commaToDot, parsePyFloat, natOfDigits]),
   (C3_numeric_input 1 5 2 "abc"
     (WorldA.mk defaultDataA
       [(5, SessionA.mk "admin_update_rate" (some "Xbox") none none)]
       (.valid defaultDataA))
     (SessionA.mk "admin_update_rate" (some "Xbox") none none)
     demoParse demoSer [7] 7 "hello"
     (WorldB.mk [] [] [] [(7, some "await_rate")] "")).2.1 rfl rfl
     (by decide) (by decide)
     (by simp [commaToDot, parsePyFloat, natOfDigits]),
   (C3_numeric_input 1 5 2 "abc"
     (WorldA.mk defaultDataA [] .absent) idleSession
     demoParse demoSer [7] 7 "hello"
     (WorldB.mk [] [] [] [(7, some "await_rate")] "")).2.2.2 rfl rfl
     (by decide)⟩

/-- Claim C3 counterexample: in variant B, with the admin in the
rate-await sub-state, the comma-decimal `"12,5"` is not accepted as a
new rate: it fails the numeric pattern, reaches no acting handler, and
leaves the settings and sub-state unchanged, refuting that a
comma-decimal is accepted wherever a decimal is expected. -/
theorem C3_counterexample_comma_rate :
    matchesRateRegex "12,5" = false ∧
    routeMessageB demoParse demoSer [7] 7 "12,5"
        (WorldB.mk [] [] [("exchange_rate", "3000")]
          [(7, some "await_rate")] "") =
      ([], WorldB.mk [] [] [("exchange_rate", "3000")]
        [(7, some "await_rate")] "") :=
  ⟨by decide, by rfl⟩


/-- Claim C8 (amended): when the admin's catalog-replace text actually
reaches `set_products` (it is neither slash-prefixed nor purely
numeric) and JSON parsing fails, the error text is replied, the
sub-state is cleared and the catalog file is unchanged; moreover the
replace is all-or-nothing — on any message the catalog file is either
untouched or exactly the serialization of a successfully parsed
document.  (Slash-prefixed or purely numeric text is swallowed by
earlier handlers and never reaches the catalog logic.) -/
theorem C8_catalog_replace {J : Type} (jl : String → Except String J)
    (ser : J → String) (adminIds : List Int) (uid : Int) (text : String)
    (w : WorldB) (e : String) :
    (uid ∈ adminIds → fsmGet w uid = some "waiting_json" →
     matchesRateRegex text = false → startsWithStr text "/" = false →
     jl text = .error e →
     routeMessageB jl ser adminIds uid text w =
       ([.reply (.jsonError e)],
        WorldB.mk w.carts w.orders w.settings (iPut w.fsm uid none)
          w.catalogFile)) ∧
    ((routeMessageB jl ser adminIds uid text w).2.catalogFile =
        w.catalogFile ∨
     ∃ d, jl text = .ok d ∧
       (routeMessageB jl ser adminIds uid text w).2.catalogFile = ser d) := by
  constructor
  · intro hadm hfsm hreg hsw herr
    have h1 : text ≠ "/start" := by
      intro he
      rw [he] at hsw
      exact absurd hsw (by decide)
    have h2 : text ≠ "/admin" := by
      intro he
      rw [he] at hsw
      exact absurd hsw (by decide)
    unfold routeMessageB set_products
    simp [h1, h2, hreg, hsw, hfsm, hadm, herr]
  · unfold routeMessageB
    split_ifs with h1 h2 h3 h4
    · left; rfl
    · unfold admin_menu
      split_ifs <;> (left; rfl)
    · unfold set_rate
      split_ifs <;> (left; rfl)
    · unfold set_products
      split_ifs with h5
      · cases hj : jl text with
        | ok d => exact Or.inr ⟨d, rfl, rfl⟩
        | error e2 => exact Or.inl rfl
      · left; rfl
    · left; rfl

theorem C8_catalog_replace_witness :
    (7 : Int) ∈ ([7] : List Int) ∧
    fsmGet (WorldB.mk [] [] [] [(7, some "waiting_json")] "OLD") 7 =
      some "waiting_json" ∧
    matchesRateRegex "nope" = false ∧
    startsWithStr "nope" "/" = false ∧
    demoParse "nope" = .error "Expecting value" ∧
    routeMessageB demoParse demoSer [7] 7 "nope"
        (WorldB.mk [] [] [] [(7, some "waiting_json")] "OLD") =
      ([.reply (.jsonError "Expecting value")],
       WorldB.mk [] [] [] (iPut [(7, some "waiting_json")] 7 none) "OLD") :=
  ⟨by decide, by rfl, by decide, by decide, by rfl,
   (C8_catalog_replace demoParse demoSer [7] 7 "nope"
     (WorldB.mk [] [] [] [(7, some "waiting_json")] "OLD")
     "Expecting value").1 (by decide) (by rfl) (by decide) (by decide)
     (by rfl)⟩

/-- Claim C8 counterexample: an admin in the catalog-replace sub-state
submits `"/x"`, which fails to parse as JSON; yet no error reply is
sent and the sub-state is not cleared — the message is slash-prefixed
and never reaches `set_products`.  This refutes the claim as stated. -/
theorem C8_counterexample_slash_text :
    demoParse "/x" = .error "Expecting value" ∧
    routeMessageB demoParse demoSer [7] 7 "/x"
        (WorldB.mk [] [] [] [(7, some "waiting_json")] "OLD") =
      ([], WorldB.mk [] [] [] [(7, some "waiting_json")] "OLD") :=
  ⟨by rfl, by rfl⟩


set_option maxHeartbeats 2000000 in
/-- Every step of variant A either leaves the data and the file alone,
or (only in the `admin_update_rate` message branch) upserts one key in
the rate table and saves it. -/
lemma handleA_data_cases (a : Int) (u : UpdateA) (w : WorldA) :
    ((handleA a u w).2.data = w.data ∧ (handleA a u w).2.file = w.file) ∨
    (∃ k v, (handleA a u w).2.data = DataA.mk (dPut w.data.coin_rates k v) ∧
      (handleA a u w).2.file =
        .valid (DataA.mk (dPut w.data.coin_rates k v)) ∧
      ∃ chat user text, u = .message chat user text ∧
        ((sGet w.tbl chat).getD idleSession).state = "admin_update_rate") := by
  cases u with
  | message chat user text =>
      by_cases hst : text = "/start"
      · left
        subst hst
        unfold handleA
        simp
      · by_cases had : text = "/admin" ∧ user = a
        · left
          unfold handleA
          simp [hst, had]
        · cases hs : sGet w.tbl chat with
          | some sess =>
              by_cases h1 : sess.state = "awaiting_coin_quantity"
              · cases hp : parsePyFloat (commaToDot text) with
                | none =>
                    left
                    rw [handleA_qty_reject a chat user text w sess hs h1 hst
                      had hp]
                    exact ⟨rfl, rfl⟩
                | some qty =>
                    cases hr : (match sess.platform with
                        | none => none
                        | some p => dGet w.data.coin_rates p) with
                    | none =>
                        left
                        unfold handleA
                        simp [hs, hst, had, h1, hp, hr]
                    | some rate =>
                        left
                        rw [handleA_qty_branch a chat user text w sess qty
                          rate hs h1 hst had hp hr]
                        exact ⟨rfl, rfl⟩
              · by_cases h2 : sess.state = "admin_update_rate"
                · cases hp : parsePyFloat (commaToDot text) with
                  | none =>
                      left
                      rw [handleA_rate_reject a chat user text w sess hs h2
                        hst had hp]
                      exact ⟨rfl, rfl⟩
                  | some nr =>
                      right
                      refine ⟨sess.platform.getD "None", nr, ?_, ?_,
                        chat, user, text, rfl, by simp [hs, h2]⟩
                      · unfold handleA
                        simp [hs, hst, had, h1, h2, hp]
                      · unfold handleA
                        simp [hs, hst, had, h1, h2, hp]
                · left
                  rw [handleA_use_menu a chat user text w sess hs h1 h2 hst
                    had]
                  exact ⟨rfl, rfl⟩
          | none =>
              left
              rw [handleA_use_menu_absent a chat user text w hs hst had]
              exact ⟨rfl, rfl⟩
  | callback cb chat user un dcb =>
      left
      unfold handleA
      dsimp only
      generalize (if (sGet w.tbl chat).isSome = true then w.tbl
        else sPut w.tbl chat idleSession) = t
      split_ifs <;> (try split) <;> exact ⟨rfl, rfl⟩

/-- Inductive invariant: every reachable world has all three platform
rates, and a valid data file also does. -/
lemma reachableA_invariant (a : Int) (w : WorldA) (h : ReachableA a w) :
    hasAllPlatforms w.data ∧ fileInvA w.file := by
  induction h with
  | boot => exact ⟨⟨rfl, rfl, rfl⟩, ⟨rfl, rfl, rfl⟩⟩
  | step u hw ih =>
      rename_i w1
      rcases handleA_data_cases a u w1 with ⟨hd, hf⟩ | ⟨k, v, hd, hf, _⟩
      · rw [hd, hf]
        exact ih
      · rw [hd, hf]
        obtain ⟨hx, hp, hc⟩ := ih.1
        refine ⟨⟨?_, ?_, ?_⟩, ⟨?_, ?_, ?_⟩⟩ <;>
          first
            | exact dGet_dPut_isSome _ _ _ _ hx
            | exact dGet_dPut_isSome _ _ _ _ hp
            | exact dGet_dPut_isSome _ _ _ _ hc
  | restart hw ih =>
      rename_i w1
      cases hf : w1.file with
      | absent => exact ⟨⟨rfl, rfl, rfl⟩, ⟨rfl, rfl, rfl⟩⟩
      | corrupt => exact ⟨⟨rfl, rfl, rfl⟩, ⟨rfl, rfl, rfl⟩⟩
      | valid d =>
          have := ih.2
          rw [hf] at this
          exact ⟨this, this⟩


/-- Claim C9: every reachable world of variant A has a rate entry for
each of Xbox, PlayStation and PC, and the rate table is mutated only by
the admin rate-update flow (a text message handled in the
`admin_update_rate` session state). -/
theorem C9_rate_table (a : Int) (w : WorldA) (u : UpdateA) :
    (ReachableA a w → hasAllPlatforms w.data) ∧
    ((handleA a u w).2.data ≠ w.data →
      ∃ chat user text, u = .message chat user text ∧
        ((sGet w.tbl chat).getD idleSession).state = "admin_update_rate") :=
  ⟨fun h => (reachableA_invariant a w h).1,
   fun hne => by
     rcases handleA_data_cases a u w with ⟨hd, _⟩ | ⟨k, v, _, _, hrest⟩
     · exact absurd hd hne
     · exact hrest⟩

theorem C9_rate_table_witness :
    hasAllPlatforms (bootWorldA .absent).data ∧
    (∃ chat user text,
      (.message 5 2 "5" : UpdateA) = .message chat user text ∧
      ((sGet (WorldA.mk defaultDataA
          [(5, SessionA.mk "admin_update_rate" (some "Xbox") none none)]
          (.valid defaultDataA)).tbl chat).getD idleSession).state =
        "admin_update_rate") :=
  ⟨(C9_rate_table 1 (bootWorldA .absent) (.message 0 0 "")).1 ReachableA.boot,
   (C9_rate_table 1
     (WorldA.mk defaultDataA
       [(5, SessionA.mk "admin_update_rate" (some "Xbox") none none)]
       (.valid defaultDataA)) (.message 5 2 "5")).2 (by
      have hstep : (handleA 1 (.message 5 2 "5")
          (WorldA.mk defaultDataA
            [(5, SessionA.mk "admin_update_rate" (some "Xbox") none none)]
            (.valid defaultDataA))).2.data =
          DataA.mk (dPut defaultDataA.coin_rates "Xbox" ((1 : ℚ) *
            (natOfDigits ['5'] : ℚ))) := by
        unfold handleA
        simp [sGet, List.find?, parsePyFloat, commaToDot]
      intro hcon
      rw [hstep] at hcon
      have h2 := congrArg (fun d => dGet d.coin_rates "Xbox") hcon
      simp [dGet_dPut_self, defaultDataA, dGet, List.find?,
        natOfDigits] at h2)⟩

end StoreBot
